import Mathlib

/-!
Shallow embedding of the SHIPS ingestion/query code (`src/ships/ships.py`, class `Ships`):
the row-name tokenizer, the block parser `parse_and_save_to_db`, the sqlite storage model,
the query layer `get_storm_obs`, and the documentation loader `load_documentation`,
together with theorems settling the specification claims about them.

Python strings are modelled as `String`/`List Char` (a Python `str` is a sequence of code
points, matching `String.data`); Python lists as `List`; the sqlite table as a list of rows,
each row a list of `PyValue`s; `datetime` instants at whole-hour resolution as `DT`.
-/

set_option linter.unusedVariables false

/-- ASCII decimal digit test; models Python `c.isdigit()` on the ASCII tokens of the file. -/
def isDig (c : Char) : Bool := 48 ≤ c.toNat && c.toNat ≤ 57

/-- Numeric value of a decimal digit character. -/
def digitVal (c : Char) : Nat := c.toNat - 48

/-- The decimal digit character for `d < 10`. -/
def digitChar (d : Nat) : Char := Char.ofNat (48 + d)

/-- Decimal value of a digit string (Python `int` on an all-digit string). -/
def natOfDigits (l : List Char) : Nat := l.foldl (fun n c => 10 * n + digitVal c) 0

/-- Whitespace as recognized by Python `str.split()` / `str.strip()` on this ASCII input. -/
def isSpace (c : Char) : Bool := c = ' ' || c = '\t' || c = '\n' || c = '\r'

/-- Python `line.strip()` on the character list. -/
def trimChars (l : List Char) : List Char :=
  ((l.dropWhile isSpace).reverse.dropWhile isSpace).reverse

/-- Python `line.strip()`. -/
def pyStrip (s : String) : String := String.mk (trimChars s.data)

/-- Helper for `pyWords`: scan characters, accumulating the current word reversed in `acc`. -/
def wordsAux : List Char → List Char → List (List Char)
  | [], acc => if acc.isEmpty then [] else [acc.reverse]
  | c :: cs, acc =>
    if isSpace c then
      if acc.isEmpty then wordsAux cs [] else acc.reverse :: wordsAux cs []
    else wordsAux cs (c :: acc)

/-- Python `line.split()`: split on runs of whitespace, discarding empty fields. -/
def pyWords (s : String) : List String := (wordsAux s.data []).map String.mk

/-- Python `s[-4:]` (the whole string when it has fewer than 4 characters). -/
def pyTakeRight4 (s : String) : String := String.mk (s.data.drop (s.data.length - 4))

/-- Python `s[2:]`. -/
def pyDropFirst2 (s : String) : String := String.mk (s.data.drop 2)

/-- Python `all(c.isdigit() for c in s)`. -/
def pyAllDigits (s : String) : Bool := s.data.all isDig

/-- The row-name lambda used at `ships.py:56` and `ships.py:83`:
`fields[-2] if all(c.isdigit() for c in fields[-1]) else fields[-1]`.
`Option.none` models an `IndexError` (empty field list, or a lone all-digit field). -/
def getname (fields : List String) : Option String :=
  match fields.getLast? with
  | Option.none => Option.none
  | Option.some lastTok =>
    if pyAllDigits lastTok then fields.dropLast.getLast? else Option.some lastTok

/-- A calendar instant at whole-hour resolution, as produced by
`datetime.strptime(s, '%Y%m%d%H')` (minutes and seconds are zero). -/
structure DT where
  year : Nat
  month : Nat
  day : Nat
  hour : Nat
  deriving DecidableEq, Repr

/-- Proleptic-Gregorian leap-year rule used by Python `datetime`. -/
def isLeap (y : Nat) : Bool := (y % 4 == 0 && y % 100 != 0) || y % 400 == 0

/-- Days in a month, per Python `datetime`. -/
def daysInMonth (y m : Nat) : Nat :=
  if m = 2 then (if isLeap y then 29 else 28)
  else if m = 4 ∨ m = 6 ∨ m = 9 ∨ m = 11 then 30 else 31

/-- A valid `datetime` at hour resolution: the exact bounds Python `datetime` enforces
(`MINYEAR = 1`, `MAXYEAR = 9999`, real calendar day, hour 0..23). -/
def DTValid (t : DT) : Prop :=
  1 ≤ t.year ∧ t.year ≤ 9999 ∧ 1 ≤ t.month ∧ t.month ≤ 12 ∧
  1 ≤ t.day ∧ t.day ≤ daysInMonth t.year t.month ∧ t.hour ≤ 23

instance (t : DT) : Decidable (DTValid t) := by unfold DTValid; infer_instance

/-- The matches, in regex-alternation order, of CPython `_strptime`'s month pattern
`1[0-2]|0[1-9]|[1-9]` against a prefix of `r`: each entry is the month value and the
remaining characters. -/
def mCands (r : List Char) : List (Nat × List Char) :=
  (match r with
   | '1' :: c :: rest => if '0' ≤ c ∧ c ≤ '2' then [(10 + digitVal c, rest)] else []
   | _ => []) ++
  (match r with
   | '0' :: c :: rest => if '1' ≤ c ∧ c ≤ '9' then [(digitVal c, rest)] else []
   | _ => []) ++
  (match r with
   | c :: rest => if '1' ≤ c ∧ c ≤ '9' then [(digitVal c, rest)] else []
   | _ => [])

/-- The matches, in regex-alternation order, of CPython `_strptime`'s day pattern
`3[01]|[12]\d|0[1-9]|[1-9]| [1-9]` against a prefix of `r`. -/
def dCands (r : List Char) : List (Nat × List Char) :=
  (match r with
   | '3' :: c :: rest => if c = '0' ∨ c = '1' then [(30 + digitVal c, rest)] else []
   | _ => []) ++
  (match r with
   | c1 :: c2 :: rest =>
     if (c1 = '1' ∨ c1 = '2') ∧ isDig c2 then [(10 * digitVal c1 + digitVal c2, rest)] else []
   | _ => []) ++
  (match r with
   | '0' :: c :: rest => if '1' ≤ c ∧ c ≤ '9' then [(digitVal c, rest)] else []
   | _ => []) ++
  (match r with
   | c :: rest => if '1' ≤ c ∧ c ≤ '9' then [(digitVal c, rest)] else []
   | _ => []) ++
  (match r with
   | ' ' :: c :: rest => if '1' ≤ c ∧ c ≤ '9' then [(digitVal c, rest)] else []
   | _ => [])

/-- The matches, in regex-alternation order, of CPython `_strptime`'s hour pattern
`2[0-3]|[0-1]\d|\d` against a prefix of `r`. -/
def hCands (r : List Char) : List (Nat × List Char) :=
  (match r with
   | '2' :: c :: rest => if '0' ≤ c ∧ c ≤ '3' then [(20 + digitVal c, rest)] else []
   | _ => []) ++
  (match r with
   | c1 :: c2 :: rest =>
     if (c1 = '0' ∨ c1 = '1') ∧ isDig c2 then [(10 * digitVal c1 + digitVal c2, rest)] else []
   | _ => []) ++
  (match r with
   | c :: rest => if isDig c then [(digitVal c, rest)] else []
   | _ => [])

/-- Model of `datetime.strptime(s, '%Y%m%d%H')` at `ships.py:105`, following CPython
`_strptime`: the format compiles to the regex
`(\d\d\d\d)(1[0-2]|0[1-9]|[1-9])(3[01]|[12]\d|0[1-9]|[1-9]| [1-9])(2[0-3]|[0-1]\d|\d)`,
matched against a PREFIX of the string with left-to-right alternation preference and
backtracking (so e.g. `"19826250"` parses as 1982-06-25 hour 0 - month, day and hour
may match a single digit); then `ValueError` is raised if unconverted characters
remain or the matched fields do not form a real calendar date (`datetime`
construction, `MINYEAR = 1`).  `Option.none` models `ValueError`. -/
def strptimeYmdH (s : List Char) : Option DT :=
  if 4 ≤ s.length ∧ (s.take 4).all isDig then
    match (mCands (s.drop 4)).findSome? (fun mc =>
        (dCands mc.2).findSome? (fun dc =>
          (hCands dc.2).findSome? (fun hc =>
            Option.some ((⟨natOfDigits (s.take 4), mc.1, dc.1, hc.1⟩ : DT), hc.2)))) with
    | Option.none => Option.none
    | Option.some (t, rest) => if rest = [] ∧ DTValid t then Option.some t else Option.none
  else Option.none

/-- Zero-padded `k`-digit decimal rendering of `n` (for `n < 10 ^ k`). -/
def padL : Nat → Nat → List Char
  | 0, _ => []
  | k + 1, n => padL k (n / 10) ++ [digitChar (n % 10)]

/-- Number of decimal digits of `n`, for the years that can arise here (`n ≤ 9999`,
guaranteed by the 4-digit `%Y` match in `strptimeYmdH`). -/
def digitsLen (n : Nat) : Nat :=
  if n < 10 then 1 else if n < 100 then 2 else if n < 1000 then 3 else 4

/-- `strftime('%Y')` as verified on this platform (glibc): the year is printed
UNPADDED, so `999` renders as `"999"` and only years ≥ 1000 give 4 characters. -/
def yearChars (y : Nat) : List Char := padL (digitsLen y) y

/-- Model of `curtime.strftime('%Y-%m-%d %H:%M:%S')` at `ships.py:109` for the
whole-hour instants this parser produces (years ≤ 9999): `%m`, `%d`, `%H`, `%M`, `%S`
are zero-padded to 2 digits; `%Y` is not zero-padded. -/
def fmtTimestamp (t : DT) : String :=
  String.mk (yearChars t.year ++ '-' :: (padL 2 t.month ++ '-' :: (padL 2 t.day ++
             ' ' :: (padL 2 t.hour ++ [':', '0', '0', ':', '0', '0']))))

/-- A Python value as bound into / returned from the sqlite layer.  `pdatetime` and
`pfloat` never arise from this code; they exist so that claims about "decoded instants"
and "scaled values" can be stated and refuted. -/
inductive PyValue where
  | pint (n : Int)
  | pstr (s : String)
  | pdatetime (t : DT)
  | pfloat (q : ℚ)
  | pnull
  deriving DecidableEq, Repr

/-- sqlite integer literal recognition: optional sign followed by digits. -/
def intLiteral (l : List Char) : Option Int :=
  match l with
  | '-' :: ds =>
    if ds ≠ [] ∧ ds.all isDig then Option.some (-(natOfDigits ds : Int)) else Option.none
  | '+' :: ds =>
    if ds ≠ [] ∧ ds.all isDig then Option.some ((natOfDigits ds : Int)) else Option.none
  | ds =>
    if ds ≠ [] ∧ ds.all isDig then Option.some ((natOfDigits ds : Int)) else Option.none

/-- sqlite INTEGER-affinity conversion applied when a text value is stored in an
`INT` column: integer-looking text becomes an integer, other values pass through. -/
def applyIntAffinity (v : PyValue) : PyValue :=
  match v with
  | PyValue.pstr s =>
    (match intLiteral s.data with
     | Option.some n => PyValue.pint n
     | Option.none => PyValue.pstr s)
  | v => v

/-- Column affinities of the `diagnostics` table (`ships.py:77`): `ATCF_ID CHAR(8)` keeps
text, `TIME DATETIME` keeps the (non-numeric) timestamp text, and each diagnostic `INT`
column applies integer affinity. -/
def storeRow (r : List PyValue) : List PyValue :=
  match r with
  | a :: t :: vals => a :: t :: vals.map applyIntAffinity
  | r => r

/-- Parser state for the loop at `ships.py:84-124`: `db` is what has been committed by
`executemany`, `buf` is the Python `rows` list, `pending` is the Python `row` list
(`[]` is falsy, i.e. "no pending row"), `stopped` records that a blank line ended the
`while` loop and `err` an uncaught exception (assertion, `IndexError` or `ValueError`). -/
structure PState where
  db : List (List PyValue)
  buf : List (List PyValue)
  pending : List PyValue
  linenum : Nat
  stopped : Bool
  err : Option String
  deriving DecidableEq, Repr

def initPState : PState := ⟨[], [], [], 1, false, Option.none⟩

/-- `blacklist = ['TIME']` at `ships.py:73`. -/
def blacklist : List String := ["TIME"]

/-- Field extraction on a `HEAD` line (`ships.py:100-102`): `fields[-2]`, `fields[1]`,
`fields[2]`; `Option.none` models an `IndexError`. -/
def headFields (fields : List String) : Option (String × String × String) :=
  if 2 ≤ fields.length then
    match fields.get? (fields.length - 2), fields.get? 1, fields.get? 2 with
    | Option.some curID, Option.some ymd, Option.some hh => Option.some (curID, ymd, hh)
    | _, _, _ => Option.none
  else Option.none

/-- Timestamp reconstruction on a `HEAD` line (`ships.py:104-105`):
`yyyymmddhh = curID[-4:] + yymmdd[2:] + utchour; curtime = datetime.strptime(yyyymmddhh, '%Y%m%d%H')`. -/
def parseHeadTime (curID ymd hh : String) : Option DT :=
  strptimeYmdH (pyTakeRight4 curID ++ pyDropFirst2 ymd ++ hh).data

/-- One iteration of the `while` loop of `parse_and_save_to_db` (`ships.py:90-124`) on the
next raw line.  After an error or after the blank line that ends the loop, remaining
lines are not processed. -/
def step (st : PState) (rawline : String) : PState :=
  if st.err.isSome ∨ st.stopped then st else
  if (pyStrip rawline).data.length = 0 then { st with stopped := true } else
  match getname (pyWords (pyStrip rawline)) with
  | Option.none => { st with err := Option.some "IndexError" }
  | Option.some name =>
    if st.linenum = 1 ∧ name ≠ "HEAD" then
      { st with err := Option.some "AssertionError: expected header line" }
    else if name = "HEAD" then
      match headFields (pyWords (pyStrip rawline)) with
      | Option.none => { st with err := Option.some "IndexError" }
      | Option.some (curID, ymd, hh) =>
        match parseHeadTime curID ymd hh with
        | Option.none => { st with err := Option.some "ValueError: time data does not match format" }
        | Option.some t =>
          { st with
            buf := if st.pending.isEmpty then st.buf else st.buf ++ [st.pending],
            pending := [PyValue.pstr curID, PyValue.pstr (fmtTimestamp t)],
            linenum := st.linenum + 1 }
    else if name = "LAST" then
      if 100 ≤ st.buf.length then
        { st with db := st.db ++ st.buf.map storeRow, buf := [], linenum := st.linenum + 1 }
      else { st with linenum := st.linenum + 1 }
    else
      match (pyWords (pyStrip rawline)).get? 2 with
      | Option.none => { st with err := Option.some "IndexError" }
      | Option.some v =>
        -- ships.py:119 also tests `param_name != 'LAST'`, which is always true here
        -- because the `LAST` case was taken by the `elif` above
        if name ∉ blacklist then
          { st with pending := st.pending ++ [PyValue.pstr v], linenum := st.linenum + 1 }
        else { st with linenum := st.linenum + 1 }

/-- `parse_and_save_to_db` (`ships.py:67-125`) run on the file's lines: the table is
created empty (DROP/CREATE) and the loop is folded over the lines.  Note that after the
loop nothing further is appended or inserted (`ships.py:125` only prints). -/
def parse_and_save_to_db (lines : List String) : PState :=
  lines.foldl step initPState

/-- Number of (stripped, pre-blank-line) input lines whose resolved row name is `HEAD`. -/
def countHEAD (lines : List String) : Nat :=
  (((lines.map pyStrip).takeWhile (fun l => !l.data.isEmpty)).filter
    (fun l => getname (pyWords l) == Option.some "HEAD")).length

/-- The `TIME` field of a stored row (column index 1), as a character list. -/
def rowTimeChars (r : List PyValue) : List Char :=
  match r.get? 1 with
  | Option.some (PyValue.pstr s) => s.data
  | _ => []

/-- Boolean lexicographic strict order on character lists: the order sqlite's `ORDER BY`
uses on these ASCII TEXT values (memcmp on the UTF-8 bytes). -/
def lexLtB : List Char → List Char → Bool
  | [], [] => false
  | [], _ :: _ => true
  | _ :: _, [] => false
  | a :: as, b :: bs => if a < b then true else if b < a then false else lexLtB as bs

/-- `ORDER BY TIME` comparison between two stored rows (non-strict). -/
def rowle (r1 r2 : List PyValue) : Prop :=
  lexLtB (rowTimeChars r2) (rowTimeChars r1) = false

instance : DecidableRel rowle := fun r1 r2 =>
  inferInstanceAs (Decidable (lexLtB (rowTimeChars r2) (rowTimeChars r1) = false))

/-- `WHERE ATCF_ID="{ATCF_ID}"`: the first column equals the requested identifier. -/
def rowMatches (ATCF_ID : String) (r : List PyValue) : Bool :=
  decide (r.head? = Option.some (PyValue.pstr ATCF_ID))

/-- Length of the shortest row (Python `zip` truncates to the shortest argument). -/
def minLen : List (List PyValue) → Nat
  | [] => 0
  | r :: rs => rs.foldl (fun m x => Nat.min m x.length) r.length

/-- Python `list(zip(*rows))` : the `i`-th output is the list of `i`-th entries of the
rows, for `i` below the length of the shortest row; empty when `rows` is empty. -/
def pyZipStar (rows : List (List PyValue)) : List (List PyValue) :=
  (List.range (minLen rows)).map (fun i => rows.map (fun r => r.getD i PyValue.pnull))

/-- The row list produced by
`SELECT * FROM diagnostics WHERE ATCF_ID="{ATCF_ID}" ORDER BY TIME` (`ships.py:138`). -/
def orderedRows (db : List (List PyValue)) (ATCF_ID : String) : List (List PyValue) :=
  List.insertionSort rowle (db.filter (rowMatches ATCF_ID))

/-- Model of `get_storm_obs` (`ships.py:127-142`): select the rows whose `ATCF_ID` column
equals the argument, sort them by the stored `TIME` text, transpose, and pair the column
names with the columns (`dict(zip(colnames, values))`).  No other processing is done. -/
def get_storm_obs (colnames : List String) (db : List (List PyValue)) (ATCF_ID : String) :
    List (String × List PyValue) :=
  List.zip colnames (pyZipStar (orderedRows db ATCF_ID))

/-- Python `line.split(':')` (split on every colon, keeping empty pieces). -/
def splitOnColon : List Char → List (List Char)
  | [] => [[]]
  | c :: cs =>
    match splitOnColon cs with
    | [] => [[]]
    | h :: t => if c = ':' then [] :: h :: t else (c :: h) :: t

/-- `parts = [p.strip() for p in line.split(':')]` at `ships.py:43`. -/
def docParts (line : String) : List String :=
  (splitOnColon line.data).map (fun p => String.mk (trimChars p))

/-- Python `':'.join(xs)`. -/
def joinColon : List String → String
  | [] => ""
  | [x] => x
  | x :: xs => x ++ ":" ++ joinColon xs

/-- `param = parts[0]` at `ships.py:44`. -/
def docParam (line : String) : String := (docParts line).headD ""

/-- `descr = ':'.join(parts[1:]) if len(parts) > 1 else ''` at `ships.py:45`
(for a single part, `':'.join([])` is also `''`). -/
def docDescr (line : String) : String := joinColon (docParts line).tail

/-- Python dict assignment `d[k] = v`: overwrite in place if the key exists, else append. -/
def upsert (d : List (String × String)) (k v : String) : List (String × String) :=
  if d.any (fun p => decide (p.1 = k)) then
    d.map (fun p => if p.1 = k then (k, v) else p)
  else d ++ [(k, v)]

/-- Model of `load_documentation` (`ships.py:35-47`) on the file's lines (newlines
already removed; `strip` inside `docParts` absorbs them anyway). -/
def load_documentation (lines : List String) : List (String × String) :=
  lines.foldl (fun d l => upsert d (docParam l) (docDescr l)) []

/-- Modelled from the spec (§4.6), for comparison with `load_documentation`:
"split on the first colon only (descriptions may themselves contain colons); build and
return a mapping of code → trimmed description". -/
def load_documentation_spec (lines : List String) : List (String × String) :=
  lines.foldl (fun d l =>
    upsert d (String.mk (trimChars (l.data.takeWhile (fun c => c != ':'))))
             (String.mk (trimChars ((l.data.dropWhile (fun c => c != ':')).drop 1)))) []

/-! ### Sample data used by concrete theorems -/

/-- A well-formed single-block SHIPS input: one `HEAD` line, one diagnostic line,
one `LAST` line, then end of input. -/
def inputOneBlock : List String :=
  ["ALBERTO  820625 00  25  AL011982 HEAD",
   "9999  50 154  60 LAT",
   "LAST"]

/-- The identifying columns followed by one diagnostic column, as built at `ships.py:77`. -/
def colnamesATL : List String := ["ATCF_ID", "TIME", "LAT"]

/-- A stored table holding one row whose `LAT` value is the missing-value sentinel. -/
def dbSentinel : List (List PyValue) :=
  [[PyValue.pstr "AL011982", PyValue.pstr "1982-06-25 00:00:00", PyValue.pint 9999]]

/-- A stored table holding one row whose `LAT` value is the raw integer 154. -/
def dbLat : List (List PyValue) :=
  [[PyValue.pstr "AL011982", PyValue.pstr "1982-06-25 00:00:00", PyValue.pint 154]]

/-- A documentation line whose description contains a colon surrounded by spaces. -/
def docLineColons : String := "X: a : b"

/-! ### Helper lemmas about the parser -/

theorem step_frozen (st : PState) (l : String) (h : st.err.isSome = true) : step st l = st := by
  unfold step
  rw [if_pos (Or.inl h)]

theorem foldl_step_frozen (ls : List String) (st : PState) (h : st.err.isSome = true) :
    List.foldl step st ls = st := by
  induction ls with
  | nil => rfl
  | cons l ls ih => rw [List.foldl_cons, step_frozen st l h, ih]

/-! ### C1: the final pending row and the final partial batch are never flushed -/

/-- C1 (code bug evidence): on a well-formed single-block input, `parse_and_save_to_db`
finishes without error, the input contains exactly one `HEAD` line, yet the table ends
up with zero rows: the block's pending row is never appended to `rows` at end of input,
and the sub-100 partial batch is never inserted (`ships.py:110-115` flushes only on a
`LAST` line when at least 100 rows are buffered; nothing is flushed after the loop). -/
theorem C1_final_rows_never_flushed :
    (parse_and_save_to_db inputOneBlock).err = Option.none ∧
    (parse_and_save_to_db inputOneBlock).db = [] ∧
    countHEAD inputOneBlock = 1 ∧
    (parse_and_save_to_db inputOneBlock).pending =
      [PyValue.pstr "AL011982", PyValue.pstr "1982-06-25 00:00:00", PyValue.pstr "154"] := by
  decide

/-! ### C6: row-name resolution -/

/-- C6: for a tokenized line, the resolved row name is the second-to-last token when the
last token consists entirely of digits, and the last token otherwise (for a line with a
single non-digit token, that token).  In particular `... 12 SHRD 5` resolves to `SHRD`
and `... 12 LAST` resolves to `LAST`. -/
theorem C6_rowname_resolution :
    (∀ (l : List String) (y x : String),
      getname (l ++ [y, x]) = (if pyAllDigits x then Option.some y else Option.some x)) ∧
    (∀ x : String, pyAllDigits x = false → getname [x] = Option.some x) ∧
    getname ["w", "12", "SHRD", "5"] = Option.some "SHRD" ∧
    getname ["w", "12", "LAST"] = Option.some "LAST" := by
  refine ⟨?_, ?_, by decide, by decide⟩
  · intro l y x
    have h2 : l ++ [y, x] = (l ++ [y]) ++ [x] := by simp
    rw [h2]
    unfold getname
    rw [List.getLast?_concat, List.dropLast_concat, List.getLast?_concat]
  · intro x hx
    unfold getname
    simp [hx]

/-- Witness for C6 at concrete inputs. -/
theorem C6_rowname_resolution_witness :
    pyAllDigits "LAST" = false ∧ getname ["LAST"] = Option.some "LAST" :=
  ⟨by decide, C6_rowname_resolution.2.1 "LAST" (by decide)⟩


/-! ### C7: the first line must resolve to HEAD -/

/-- C7: if the first line of the input is non-blank and does not resolve to row name
`HEAD` (including the case where name resolution itself raises `IndexError`), the run
fails with an uncaught exception (`assert getname(fields) == 'HEAD'`, `ships.py:96`)
before any row has been inserted, and no later line is processed. -/
theorem C7_first_line_must_be_HEAD (l : String) (ls : List String)
    (hne : (pyStrip l).data ≠ [])
    (hh : getname (pyWords (pyStrip l)) ≠ Option.some "HEAD") :
    (parse_and_save_to_db (l :: ls)).err.isSome = true ∧
    (parse_and_save_to_db (l :: ls)).db = [] := by
  have hstep : (step initPState l).err.isSome = true ∧ (step initPState l).db = [] := by
    rcases hg : getname (pyWords (pyStrip l)) with _ | name
    · simp only [step, initPState, hg]
      rw [if_neg (by simp)]
      rw [if_neg (fun h0 => hne (List.length_eq_zero.mp h0))]
      simp
    · have hname : name ≠ "HEAD" := fun he => hh (by rw [hg, he])
      simp only [step, initPState, hg]
      rw [if_neg (by simp)]
      rw [if_neg (fun h0 => hne (List.length_eq_zero.mp h0))]
      rw [if_pos ⟨by trivial, hname⟩]
      simp
  unfold parse_and_save_to_db
  rw [List.foldl_cons, foldl_step_frozen ls _ hstep.1]
  exact hstep

/-- Witness for C7 at a concrete input whose first line names `FOOB`. -/
theorem C7_first_line_must_be_HEAD_witness :
    (pyStrip "820625 00 AL011982 FOOB").data ≠ [] ∧
    (parse_and_save_to_db ["820625 00 AL011982 FOOB"]).err.isSome = true ∧
    (parse_and_save_to_db ["820625 00 AL011982 FOOB"]).db = [] :=
  ⟨by decide, C7_first_line_must_be_HEAD "820625 00 AL011982 FOOB" [] (by decide) (by decide)⟩

/-! ### C8: unknown storm identifier yields an empty mapping -/

/-- C8: when no stored row matches the requested storm identifier, `get_storm_obs`
returns the empty mapping (`zip(colnames, [])` is empty) and raises nothing: "no data"
is a normal outcome (`ships.py:138-142`). -/
theorem C8_unknown_storm_empty (colnames : List String) (db : List (List PyValue))
    (ATCF_ID : String) (h : ∀ r ∈ db, rowMatches ATCF_ID r = false) :
    get_storm_obs colnames db ATCF_ID = [] := by
  have hf : db.filter (rowMatches ATCF_ID) = [] := by
    rw [List.filter_eq_nil_iff]
    intro a ha
    simp [h a ha]
  simp [get_storm_obs, orderedRows, hf, pyZipStar, minLen]

/-- Witness for C8: a table for one Atlantic storm holds no rows for `EP011990`. -/
theorem C8_unknown_storm_empty_witness :
    (∀ r ∈ dbLat, rowMatches "EP011990" r = false) ∧
    get_storm_obs colnamesATL dbLat "EP011990" = [] :=
  ⟨by decide, C8_unknown_storm_empty colnamesATL dbLat "EP011990" (by decide)⟩

/-! ### C2: timestamp reconstruction uses the identifier's 4-digit year -/

theorem findSome?_some_mem {α β : Type} (f : α → Option β) :
    ∀ (l : List α) (b : β), l.findSome? f = Option.some b → ∃ a ∈ l, f a = Option.some b := by
  intro l
  induction l with
  | nil => intro b hb; cases hb
  | cons x xs ih =>
    intro b hb
    unfold List.findSome? at hb
    rcases hx : f x with _ | y
    · rw [hx] at hb
      change List.findSome? f xs = Option.some b at hb
      obtain ⟨a, ha, hfa⟩ := ih b hb
      exact ⟨a, List.mem_cons_of_mem x ha, hfa⟩
    · rw [hx] at hb
      change Option.some y = Option.some b at hb
      exact ⟨x, List.mem_cons_self x xs, by rw [hx]; exact hb⟩

/-- `strptime('%Y%m%d%H')` succeeds only with a valid calendar date-hour; invalid
fields are a fatal `ValueError`. -/
theorem strptimeYmdH_sound (s : List Char) (t : DT) (he : strptimeYmdH s = Option.some t) :
    DTValid t := by
  unfold strptimeYmdH at he
  split at he
  · split at he
    · cases he
    · split at he
      · injection he with h1
        subst h1
        exact (by assumption : _ ∧ _).2
      · cases he
  · cases he

/-- Whatever lenient field widths `strptime('%Y%m%d%H')` settles on, the year is
always the number read from the first four characters. -/
theorem strptimeYmdH_year (s : List Char) (t : DT) (he : strptimeYmdH s = Option.some t) :
    t.year = natOfDigits (s.take 4) := by
  unfold strptimeYmdH at he
  split at he
  · split at he
    · cases he
    case h_2 t' rest heq =>
      split at he
      · injection he with h1
        obtain ⟨mc, hmc, hmc2⟩ := findSome?_some_mem _ _ _ heq
        obtain ⟨dc, hdc, hdc2⟩ := findSome?_some_mem _ _ _ hmc2
        obtain ⟨hc, hhc, hhc2⟩ := findSome?_some_mem _ _ _ hdc2
        injection hhc2 with h2
        obtain ⟨h3, h4⟩ := Prod.mk.inj h2
        rw [← h1, ← h3]
      · cases he
  · cases he

/-- C2 counterexample: `strptime('%Y%m%d%H')` is padding-lenient (month, day and hour
may each match a single digit), so a header whose composed string is NOT a 10-character
`YYYYMMDDHH` date can still parse without any fatal error: the date field `82625` with
hour `0` composes to the 8-character `"19826250"` yet yields 1982-06-25 00:00:00. -/
theorem C2_lenient_strptime_counterexample :
    parseHeadTime "AL011982" "82625" "0" = Option.some ⟨1982, 6, 25, 0⟩ ∧
    (pyTakeRight4 "AL011982" ++ pyDropFirst2 "82625" ++ "0").data.length = 8 := by
  decide

/-- C2 (amended): the block timestamp is parsed from the identifier's last four
characters (the 4-digit year) followed by the month-day digits `yymmdd[2:]` and the
UTC hour (`ships.py:104-105`); the 2-digit year of the date field never influences the
result; a successful parse always denotes a valid calendar date-hour, and anything
`strptime`'s (padding-lenient) `%Y%m%d%H` pattern rejects is a fatal `ValueError` -
but the pattern also accepts some non-`YYYYMMDDHH` strings with 1-digit fields.  The
header `AL011982 / 820625 / 00` yields `1982-06-25 00:00:00`, while a composed month
of 13 fails fatally. -/
theorem C2_timestamp_from_identifier_year :
    (∀ (curID ymd hh : String) (t : DT), 4 ≤ curID.data.length →
      parseHeadTime curID ymd hh = Option.some t →
      t.year = natOfDigits (pyTakeRight4 curID).data) ∧
    (∀ (curID c c' rest hh : String), c.data.length = 2 → c'.data.length = 2 →
      parseHeadTime curID (c ++ rest) hh = parseHeadTime curID (c' ++ rest) hh) ∧
    (∀ (s : List Char) (t : DT), strptimeYmdH s = Option.some t → DTValid t) ∧
    parseHeadTime "AL011982" "820625" "00" = Option.some ⟨1982, 6, 25, 0⟩ ∧
    fmtTimestamp ⟨1982, 6, 25, 0⟩ = "1982-06-25 00:00:00" ∧
    parseHeadTime "AL011982" "821325" "00" = Option.none := by
  refine ⟨?_, ?_, strptimeYmdH_sound, by decide, by decide, by decide⟩
  · intro curID ymd hh t h4 he
    have hlen : (pyTakeRight4 curID).data.length = 4 := by
      show (curID.data.drop (curID.data.length - 4)).length = 4
      rw [List.length_drop]
      omega
    unfold parseHeadTime at he
    have hy := strptimeYmdH_year _ _ he
    rw [hy]
    congr 1
    rw [String.data_append, String.data_append, List.append_assoc, ← hlen,
      List.take_left]
  · intro curID c c' rest hh hc hc'
    have key : ∀ d : String, d.data.length = 2 →
        (pyDropFirst2 (d ++ rest)).data = rest.data := by
      intro d hd
      show ((d ++ rest).data).drop 2 = rest.data
      rw [String.data_append, ← hd, List.drop_left]
    unfold parseHeadTime
    congr 1
    rw [String.data_append, String.data_append, String.data_append, String.data_append,
      key c hc, key c' hc']

/-- Witness for the amended C2 at the concrete header of the spec scenario. -/
theorem C2_timestamp_from_identifier_year_witness :
    4 ≤ ("AL011982" : String).data.length ∧
    parseHeadTime "AL011982" "820625" "00" = Option.some ⟨1982, 6, 25, 0⟩ ∧
    (⟨1982, 6, 25, 0⟩ : DT).year = natOfDigits (pyTakeRight4 "AL011982").data :=
  ⟨by decide, by decide,
    C2_timestamp_from_identifier_year.1 "AL011982" "820625" "00" ⟨1982, 6, 25, 0⟩
      (by decide) (by decide)⟩

/-! ### C9: documentation loader splits on every colon and trims each piece -/

theorem lookup_map_overwrite (k v : String) (d : List (String × String))
    (h : d.any (fun p => decide (p.1 = k)) = true) :
    (d.map (fun p => if p.1 = k then (k, v) else p)).lookup k = Option.some v := by
  induction d with
  | nil => cases h
  | cons p ds ih =>
    obtain ⟨a, b⟩ := p
    by_cases hp : a = k
    · rw [List.map_cons, if_pos hp]
      simp [List.lookup]
    · have hds : ds.any (fun p => decide (p.1 = k)) = true := by
        simpa [List.any_cons, hp] using h
      have hk : (k == a) = false := by
        simp [Ne.symm hp]
      rw [List.map_cons, if_neg hp]
      simp [List.lookup, hk, ih hds]

theorem lookup_append_self (k v : String) (d : List (String × String))
    (h : d.any (fun p => decide (p.1 = k)) = false) :
    (d ++ [(k, v)]).lookup k = Option.some v := by
  induction d with
  | nil => simp [List.lookup]
  | cons p ds ih =>
    obtain ⟨a, b⟩ := p
    have hp : ¬ (a = k) := by
      intro he
      simp [List.any_cons, he] at h
    have hds : ds.any (fun p => decide (p.1 = k)) = false := by
      simpa [List.any_cons, hp] using h
    have hk : (k == a) = false := by
      simp [Ne.symm hp]
    simp [List.lookup, hk, ih hds]

theorem lookup_upsert (d : List (String × String)) (k v : String) :
    (upsert d k v).lookup k = Option.some v := by
  unfold upsert
  by_cases h : d.any (fun p => decide (p.1 = k)) = true
  · rw [if_pos h]
    exact lookup_map_overwrite k v d h
  · rw [if_neg h]
    have hf : d.any (fun p => decide (p.1 = k)) = false := by
      cases hb : d.any (fun p => decide (p.1 = k)) with
      | true => exact absurd hb h
      | false => rfl
    exact lookup_append_self k v d hf

/-- C9 (amended): `load_documentation` splits each line on EVERY colon, strips each
piece, and rejoins the description pieces with `':'` (`ships.py:43-45`), so colons in a
description survive but whitespace around them is lost; duplicate codes overwrite, so
the last occurrence wins.  In particular `"X: a : b"` maps `X` to `"a:b"`. -/
theorem C9_doc_loader_behavior :
    (∀ (ls : List String) (l : String),
      (load_documentation (ls ++ [l])).lookup (docParam l) = Option.some (docDescr l)) ∧
    docParam docLineColons = "X" ∧ docDescr docLineColons = "a:b" := by
  refine ⟨?_, by decide, by decide⟩
  intro ls l
  unfold load_documentation
  rw [List.foldl_append, List.foldl_cons, List.foldl_nil]
  exact lookup_upsert _ _ _

/-- C9 counterexample: on the line `"X: a : b"` the code yields description `"a:b"`,
while splitting on the first colon only (the claim, `load_documentation_spec`) would
preserve the description verbatim as `"a : b"`; the two differ. -/
theorem C9_first_colon_only_counterexample :
    (load_documentation [docLineColons]).lookup "X" = Option.some "a:b" ∧
    (load_documentation_spec [docLineColons]).lookup "X" = Option.some "a : b" ∧
    ("a:b" : String) ≠ "a : b" := by decide

/-! ### C3, C4, C5: the query layer is a pure pass-through -/

theorem foldl_min_le (l : List (List PyValue)) (a : Nat) :
    l.foldl (fun m x => Nat.min m x.length) a ≤ a ∧
    ∀ x ∈ l, l.foldl (fun m x => Nat.min m x.length) a ≤ x.length := by
  induction l generalizing a with
  | nil => simp
  | cons q rs ih =>
    refine ⟨le_trans (ih (Nat.min a q.length)).1 (Nat.min_le_left _ _), ?_⟩
    intro x hx
    rcases List.mem_cons.mp hx with he | hm
    · subst he
      exact le_trans (ih (Nat.min a x.length)).1 (Nat.min_le_right _ _)
    · exact (ih (Nat.min a q.length)).2 x hm

theorem minLen_le (rows : List (List PyValue)) (r : List PyValue) (h : r ∈ rows) :
    minLen rows ≤ r.length := by
  cases rows with
  | nil => cases h
  | cons q rs =>
    rcases List.mem_cons.mp h with he | hm
    · subst he
      exact (foldl_min_le rs r.length).1
    · exact (foldl_min_le rs q.length).2 r hm

theorem get_storm_obs_passthrough (colnames : List String) (db : List (List PyValue))
    (ATCF_ID : String) (c : String) (vs : List PyValue) (v : PyValue)
    (hcv : (c, vs) ∈ get_storm_obs colnames db ATCF_ID) (hv : v ∈ vs) :
    ∃ r, r ∈ db ∧ rowMatches ATCF_ID r = true ∧ v ∈ r := by
  unfold get_storm_obs at hcv
  have hvs : vs ∈ pyZipStar (orderedRows db ATCF_ID) := (List.of_mem_zip hcv).2
  unfold pyZipStar at hvs
  obtain ⟨i, hi, hvs_eq⟩ := List.mem_map.mp hvs
  subst hvs_eq
  obtain ⟨r, hr, hveq⟩ := List.mem_map.mp hv
  have hrdb : r ∈ db ∧ rowMatches ATCF_ID r = true := by
    have : r ∈ List.filter (rowMatches ATCF_ID) db := by
      have hperm := List.perm_insertionSort rowle (List.filter (rowMatches ATCF_ID) db)
      exact hperm.mem_iff.mp (by simpa [orderedRows] using hr)
    simpa using List.mem_filter.mp this
  refine ⟨r, hrdb.1, hrdb.2, ?_⟩
  have hlt : i < r.length :=
    lt_of_lt_of_le (List.mem_range.mp hi) (minLen_le _ r hr)
  rw [← hveq, List.getD_eq_getElem r PyValue.pnull hlt]
  exact List.getElem_mem hlt

theorem get_storm_obs_singleton (id ts : String) (v : PyValue) :
    get_storm_obs colnamesATL [[PyValue.pstr id, PyValue.pstr ts, v]] id =
      [("ATCF_ID", [PyValue.pstr id]), ("TIME", [PyValue.pstr ts]), ("LAT", [v])] := by
  unfold get_storm_obs orderedRows
  have hfilter : List.filter (rowMatches id) [[PyValue.pstr id, PyValue.pstr ts, v]] =
      [[PyValue.pstr id, PyValue.pstr ts, v]] := by
    simp [rowMatches]
  rw [hfilter]
  rfl

/-- C3 counterexample: a stored `LAT` value equal to the sentinel 9999 is surfaced by
`get_storm_obs` as the literal integer 9999 - not as any absent marker (Python `None`,
modelled `pnull`).  No sentinel substitution exists at `ships.py:138-142`. -/
theorem C3_sentinel_surfaced_literally_counterexample :
    (get_storm_obs colnamesATL dbSentinel "AL011982").lookup "LAT" =
      Option.some [PyValue.pint 9999] ∧
    PyValue.pint 9999 ≠ PyValue.pnull := by
  exact ⟨by decide, by simp⟩

/-- C3 (amended): every occurrence of the integer 9999 in a `get_storm_obs` result is
exactly a stored 9999 of a matching row, passed through unchanged; `get_storm_obs`
performs no missing-value replacement whatsoever. -/
theorem C3_sentinel_passthrough (colnames : List String) (db : List (List PyValue))
    (ATCF_ID : String) (c : String) (vs : List PyValue)
    (hcv : (c, vs) ∈ get_storm_obs colnames db ATCF_ID)
    (hv : PyValue.pint 9999 ∈ vs) :
    ∃ r, r ∈ db ∧ rowMatches ATCF_ID r = true ∧ PyValue.pint 9999 ∈ r :=
  get_storm_obs_passthrough colnames db ATCF_ID c vs (PyValue.pint 9999) hcv hv

/-- Witness for the amended C3 at the sentinel-holding sample table. -/
theorem C3_sentinel_passthrough_witness :
    ("LAT", [PyValue.pint 9999]) ∈ get_storm_obs colnamesATL dbSentinel "AL011982" ∧
    ∃ r, r ∈ dbSentinel ∧ rowMatches "AL011982" r = true ∧ PyValue.pint 9999 ∈ r :=
  ⟨by decide,
    C3_sentinel_passthrough colnamesATL dbSentinel "AL011982" "LAT" [PyValue.pint 9999]
      (by decide) (by decide)⟩

/-- C4 counterexample: a stored `LAT` of 154 is read back as the integer 154, not as
the claimed `154 * 0.1 = 15.4`: no scale-factor table exists anywhere in the code. -/
theorem C4_scale_factor_counterexample :
    (get_storm_obs colnamesATL dbLat "AL011982").lookup "LAT" =
      Option.some [PyValue.pint 154] ∧
    PyValue.pint 154 ≠ PyValue.pfloat ((154 : ℚ) / 10) := by
  exact ⟨by decide, by simp⟩

/-- C4 (amended): the write/read round trip is the identity on every column - a row
written with a given parameter value reads back with exactly the original integer
value; no column is scaled.  (Integer affinity turns the bound text `"154"` into the
integer 154 at insert time, so the original integer is what is stored.) -/
theorem C4_values_returned_unscaled :
    (∀ (v : PyValue) (id ts : String),
      (get_storm_obs colnamesATL [[PyValue.pstr id, PyValue.pstr ts, v]] id).lookup "LAT" =
        Option.some [v]) ∧
    applyIntAffinity (PyValue.pstr "154") = PyValue.pint 154 := by
  refine ⟨?_, by decide⟩
  intro v id ts
  rw [get_storm_obs_singleton]
  rfl

/-- C5 counterexample: the `TIME` value surfaced by `get_storm_obs` is the raw stored
text `"1982-06-25 00:00:00"`, not a decoded instant: the connection at `ships.py:32`
registers no converters and `ships.py:138-142` does not parse the column. -/
theorem C5_time_raw_string_counterexample :
    (get_storm_obs colnamesATL dbLat "AL011982").lookup "TIME" =
      Option.some [PyValue.pstr "1982-06-25 00:00:00"] ∧
    ∀ t : DT, PyValue.pstr "1982-06-25 00:00:00" ≠ PyValue.pdatetime t := by
  refine ⟨by decide, ?_⟩
  intro t
  simp

/-- C5 (amended): `get_storm_obs` returns the `TIME` column as the stored text strings,
unchanged, for every stored timestamp text. -/
theorem C5_time_returned_as_stored_text (id ts : String) (v : PyValue) :
    (get_storm_obs colnamesATL [[PyValue.pstr id, PyValue.pstr ts, v]] id).lookup "TIME" =
      Option.some [PyValue.pstr ts] := by
  rw [get_storm_obs_singleton]
  rfl

/-! ### C10: stored timestamp text sorts chronologically -/

/-- Head-to-head characterization of the lexicographic order on character lists. -/
theorem cons_lt_cons_iff (x y : Char) (r1 r2 : List Char) :
    (x :: r1 : List Char) < (y :: r2) ↔ x < y ∨ (x = y ∧ r1 < r2) := by
  constructor
  · intro h
    have h' : List.Lex (· < ·) (x :: r1) (y :: r2) := h
    cases h' with
    | cons h => exact Or.inr ⟨rfl, h⟩
    | rel h => exact Or.inl h
  · rintro (h | ⟨rfl, h⟩)
    · exact List.Lex.rel h
    · exact List.Lex.cons h

/-- The executable comparison `lexLtB` computes exactly the lexicographic strict order
(the order sqlite's `ORDER BY` uses on these ASCII TEXT values). -/
theorem lexLtB_true_iff (l1 l2 : List Char) : lexLtB l1 l2 = true ↔ l1 < l2 := by
  induction l1 generalizing l2 with
  | nil =>
    cases l2 with
    | nil => simp [lexLtB]
    | cons b bs => simp [lexLtB, List.nil_lt_cons]
  | cons a as ih =>
    cases l2 with
    | nil =>
      simp only [lexLtB, Bool.false_eq_true, false_iff]
      exact fun h => List.Lex.not_nil_right _ _ h
    | cons b bs =>
      rw [cons_lt_cons_iff]
      by_cases hab : a < b
      · simp [lexLtB, hab]
      · by_cases hba : b < a
        · have hno : ¬ (a < b ∨ a = b ∧ as < bs) := by
            rintro (h | ⟨rfl, h⟩)
            · exact hab h
            · exact lt_irrefl _ hba
          have hfalse : lexLtB (a :: as) (b :: bs) = false := by
            show (if a < b then true else if b < a then false else lexLtB as bs) = false
            rw [if_neg hab, if_pos hba]
          rw [hfalse]
          simp only [Bool.false_eq_true, false_iff]
          exact hno
        · have heq : a = b := le_antisymm (le_of_not_lt hba) (le_of_not_lt hab)
          subst heq
          simp [lexLtB, hab, ih bs]

/-- `ORDER BY` comparison is total. -/
theorem rowle_total (r1 r2 : List PyValue) : rowle r1 r2 ∨ rowle r2 r1 := by
  unfold rowle
  cases h2 : lexLtB (rowTimeChars r2) (rowTimeChars r1) with
  | false => exact Or.inl rfl
  | true =>
    cases h1 : lexLtB (rowTimeChars r1) (rowTimeChars r2) with
    | false => exact Or.inr rfl
    | true =>
      exact absurd ((lexLtB_true_iff _ _).mp h1) (lt_asymm ((lexLtB_true_iff _ _).mp h2))

/-- `ORDER BY` comparison is transitive. -/
theorem rowle_trans (r1 r2 r3 : List PyValue) (h12 : rowle r1 r2) (h23 : rowle r2 r3) :
    rowle r1 r3 := by
  unfold rowle at *
  cases h : lexLtB (rowTimeChars r3) (rowTimeChars r1) with
  | false => rfl
  | true =>
    have h31 := (lexLtB_true_iff _ _).mp h
    have h21 : ¬ rowTimeChars r2 < rowTimeChars r1 := fun hlt => by
      rw [(lexLtB_true_iff _ _).mpr hlt] at h12
      cases h12
    have h32 : ¬ rowTimeChars r3 < rowTimeChars r2 := fun hlt => by
      rw [(lexLtB_true_iff _ _).mpr hlt] at h23
      cases h23
    exact absurd (lt_of_lt_of_le (lt_of_lt_of_le h31 (le_of_not_lt h21)) (le_of_not_lt h32))
      (lt_irrefl _)

instance : IsTotal (List PyValue) rowle := ⟨rowle_total⟩

instance : IsTrans (List PyValue) rowle := ⟨rowle_trans⟩

/-- The rows returned by the `ORDER BY TIME` query are sorted by the stored text. -/
theorem sorted_orderedRows (db : List (List PyValue)) (ATCF_ID : String) :
    List.Sorted rowle (orderedRows db ATCF_ID) :=
  List.sorted_insertionSort rowle _

/-- Order and equality of decimal digit characters mirror the digits themselves. -/
theorem digit_facts : ∀ i < 10, ∀ j < 10,
    ((digitChar i < digitChar j) ↔ i < j) ∧ ((digitChar i = digitChar j) ↔ i = j) := by
  decide

/-- Comparing two strings that start with equal-width zero-padded decimal fields is
comparing the numbers first and the remainders on a tie. -/
theorem padL_lt_iff : ∀ (k a b : Nat) (r1 r2 : List Char), a < 10 ^ k → b < 10 ^ k →
    ((padL k a ++ r1) < (padL k b ++ r2) ↔ (a < b ∨ (a = b ∧ r1 < r2))) := by
  intro k
  induction k with
  | zero =>
    intro a b r1 r2 ha hb
    have ha0 : a = 0 := by omega
    have hb0 : b = 0 := by omega
    subst ha0
    subst hb0
    simp [padL]
  | succ k ih =>
    intro a b r1 r2 ha hb
    have ha' : a / 10 < 10 ^ k := Nat.div_lt_of_lt_mul (by rw [← pow_succ']; exact ha)
    have hb' : b / 10 < 10 ^ k := Nat.div_lt_of_lt_mul (by rw [← pow_succ']; exact hb)
    show ((padL k (a / 10) ++ [digitChar (a % 10)]) ++ r1) <
        ((padL k (b / 10) ++ [digitChar (b % 10)]) ++ r2) ↔ _
    rw [List.append_assoc, List.append_assoc, List.singleton_append, List.singleton_append,
      ih (a / 10) (b / 10) _ _ ha' hb', cons_lt_cons_iff]
    have hd := digit_facts (a % 10) (Nat.mod_lt _ (by norm_num)) (b % 10)
      (Nat.mod_lt _ (by norm_num))
    rw [hd.1, hd.2]
    by_cases hP : r1 < r2 <;> simp [hP] <;> omega

/-- Chronological strict order on instants (year, then month, day, hour). -/
def chronoLt (t1 t2 : DT) : Prop :=
  t1.year < t2.year ∨ (t1.year = t2.year ∧ (t1.month < t2.month ∨ (t1.month = t2.month ∧
    (t1.day < t2.day ∨ (t1.day = t2.day ∧ t1.hour < t2.hour)))))

/-- Chronological non-strict order. -/
def chronoLe (t1 t2 : DT) : Prop := ¬ chronoLt t2 t1

instance (t1 t2 : DT) : Decidable (chronoLt t1 t2) := by unfold chronoLt; infer_instance

theorem daysInMonth_le (y m : Nat) : daysInMonth y m ≤ 31 := by
  unfold daysInMonth
  split_ifs <;> norm_num

/-- Years of four digits render zero-padding-free and padded alike: `yearChars`
agrees with `padL 4` from 1000 on. -/
theorem yearChars_eq_padL4 (y : Nat) (h : 1000 ≤ y) : yearChars y = padL 4 y := by
  unfold yearChars digitsLen
  rw [if_neg (by omega), if_neg (by omega), if_neg (by omega)]

/-- For instants with 4-digit years, the `strftime` texts of two valid instants
compare lexicographically exactly as the instants compare chronologically.  (For a
year below 1000 the unpadded `%Y` breaks this; see the C10 counterexample.) -/
theorem fmtTimestamp_lt_iff (t1 t2 : DT) (h1 : DTValid t1) (h2 : DTValid t2)
    (hk1 : 1000 ≤ t1.year) (hk2 : 1000 ≤ t2.year) :
    fmtTimestamp t1 < fmtTimestamp t2 ↔ chronoLt t1 t2 := by
  obtain ⟨hy1a, hy1b, hm1a, hm1b, hd1a, hd1b, hh1⟩ := h1
  obtain ⟨hy2a, hy2b, hm2a, hm2b, hd2a, hd2b, hh2⟩ := h2
  have hy1 : t1.year < 10 ^ 4 := by norm_num; omega
  have hy2 : t2.year < 10 ^ 4 := by norm_num; omega
  have hm1 : t1.month < 10 ^ 2 := by norm_num; omega
  have hm2 : t2.month < 10 ^ 2 := by norm_num; omega
  have hd1 : t1.day < 10 ^ 2 := by
    have := daysInMonth_le t1.year t1.month
    norm_num
    omega
  have hd2 : t2.day < 10 ^ 2 := by
    have := daysInMonth_le t2.year t2.month
    norm_num
    omega
  have hh1' : t1.hour < 10 ^ 2 := by norm_num; omega
  have hh2' : t2.hour < 10 ^ 2 := by norm_num; omega
  rw [String.lt_iff_toList_lt]
  have hdata : ∀ t : DT, (fmtTimestamp t).toList =
      yearChars t.year ++ '-' :: (padL 2 t.month ++ '-' :: (padL 2 t.day ++
        ' ' :: (padL 2 t.hour ++ [':', '0', '0', ':', '0', '0']))) := fun t => rfl
  rw [hdata, hdata, yearChars_eq_padL4 _ hk1, yearChars_eq_padL4 _ hk2]
  rw [padL_lt_iff 4 _ _ _ _ hy1 hy2, cons_lt_cons_iff,
    padL_lt_iff 2 _ _ _ _ hm1 hm2, cons_lt_cons_iff,
    padL_lt_iff 2 _ _ _ _ hd1 hd2, cons_lt_cons_iff,
    padL_lt_iff 2 _ _ _ _ hh1' hh2']
  simp [chronoLt, lt_irrefl]

theorem padL_length (k n : Nat) : (padL k n).length = k := by
  induction k generalizing n with
  | zero => rfl
  | succ k ih => simp [padL, ih]

/-- For 4-digit years the rendered timestamp is the fixed 19-character
`YYYY-MM-DD HH:MM:SS` layout. -/
theorem fmtTimestamp_length (t : DT) (hk : 1000 ≤ t.year) :
    (fmtTimestamp t).data.length = 19 := by
  show (yearChars t.year ++ '-' :: (padL 2 t.month ++ '-' :: (padL 2 t.day ++
    ' ' :: (padL 2 t.hour ++ [':', '0', '0', ':', '0', '0'])))).length = 19
  rw [yearChars_eq_padL4 _ hk]
  simp [padL_length]

/-- A stored row's `TIME` column holds the `strftime` text of some valid instant. -/
def timeOK (r : List PyValue) : Prop :=
  ∃ t, DTValid t ∧ r.get? 1 = Option.some (PyValue.pstr (fmtTimestamp t))

/-- Parser invariant: every committed, buffered or pending row carries a well-formed
timestamp text, and once past line 1 without error a pending row exists. -/
def PInv (st : PState) : Prop :=
  1 ≤ st.linenum ∧ (∀ r ∈ st.db, timeOK r) ∧ (∀ r ∈ st.buf, timeOK r) ∧
  (st.pending ≠ [] → timeOK st.pending) ∧
  (st.err = Option.none → 2 ≤ st.linenum → st.pending ≠ [])

theorem storeRow_get1 (r : List PyValue) : (storeRow r).get? 1 = r.get? 1 := by
  unfold storeRow
  match r with
  | [] => rfl
  | [a] => rfl
  | a :: t :: vals => rfl

theorem timeOK_append (l : List PyValue) (v : PyValue) (h : timeOK l) : timeOK (l ++ [v]) := by
  obtain ⟨t, ht, hg⟩ := h
  have hlt : 1 < l.length := (List.get?_eq_some.mp hg).1
  exact ⟨t, ht, by rw [List.get?_append hlt]; exact hg⟩

theorem step_PInv (st : PState) (l : String) (h : PInv st) : PInv (step st l) := by
  obtain ⟨h1, hdb, hbuf, hpend, hne⟩ := h
  unfold step
  split
  · exact ⟨h1, hdb, hbuf, hpend, hne⟩
  case isFalse hfr =>
  have herr : st.err = Option.none := by
    cases he : st.err with
    | none => rfl
    | some e => exact absurd (Or.inl (by simp [he])) hfr
  split
  · exact ⟨h1, hdb, hbuf, hpend, fun _ hl => hne herr hl⟩
  case isFalse hblank =>
  split
  · exact ⟨h1, hdb, hbuf, hpend, fun he => Option.noConfusion he⟩
  case h_2 name heqname =>
  split
  · exact ⟨h1, hdb, hbuf, hpend, fun he => Option.noConfusion he⟩
  case isFalse hnotass =>
  split
  case isTrue hishead =>
    split
    · exact ⟨h1, hdb, hbuf, hpend, fun he => Option.noConfusion he⟩
    case h_2 trip curID ymd hh heqhf =>
    split
    · exact ⟨h1, hdb, hbuf, hpend, fun he => Option.noConfusion he⟩
    case h_2 t heqpt =>
    refine ⟨Nat.succ_le_succ (Nat.zero_le _), hdb, ?_,
      fun _ => ⟨t, strptimeYmdH_sound _ t heqpt, rfl⟩, fun _ _ => by simp⟩
    intro r hr
    by_cases hpe : st.pending.isEmpty
    · rw [if_pos hpe] at hr
      exact hbuf r hr
    · rw [if_neg hpe] at hr
      rcases List.mem_append.mp hr with hr | hr
      · exact hbuf r hr
      · rw [List.mem_singleton.mp hr]
        exact hpend (by simpa [List.isEmpty_iff] using hpe)
  case isFalse hnothead =>
  have hne1 : st.linenum ≠ 1 := fun hl1 => hnothead (not_not.mp (fun hb => hnotass ⟨hl1, hb⟩))
  have hl2 : 2 ≤ st.linenum := by omega
  split
  case isTrue hislast =>
    have hpne : st.pending ≠ [] := hne herr hl2
    split
    · refine ⟨Nat.succ_le_succ (Nat.zero_le _), ?_, by simp, hpend, fun _ _ => hpne⟩
      intro r hr
      rcases List.mem_append.mp hr with hr | hr
      · exact hdb r hr
      · obtain ⟨r0, hr0, hmap⟩ := List.mem_map.mp hr
        obtain ⟨t, ht, hg⟩ := hbuf r0 hr0
        exact ⟨t, ht, by rw [← hmap, storeRow_get1]; exact hg⟩
    · exact ⟨Nat.succ_le_succ (Nat.zero_le _), hdb, hbuf, hpend, fun _ _ => hpne⟩
  case isFalse hnotlast =>
  split
  · exact ⟨h1, hdb, hbuf, hpend, fun he => Option.noConfusion he⟩
  case h_2 v heqv =>
  have hpne : st.pending ≠ [] := hne herr hl2
  have htOK := hpend hpne
  split
  · exact ⟨Nat.succ_le_succ (Nat.zero_le _), hdb, hbuf, fun _ => timeOK_append _ _ htOK,
      fun _ _ => by simp⟩
  · exact ⟨Nat.succ_le_succ (Nat.zero_le _), hdb, hbuf, hpend, fun _ _ => hpne⟩

theorem PInv_init : PInv initPState := by
  refine ⟨by decide, by simp [initPState], by simp [initPState], ?_, ?_⟩
  · intro hp
    exact absurd rfl hp
  · intro _ hl
    simp [initPState] at hl

theorem PInv_run (lines : List String) : PInv (parse_and_save_to_db lines) := by
  unfold parse_and_save_to_db
  have : ∀ (ls : List String) (st : PState), PInv st → PInv (List.foldl step st ls) := by
    intro ls
    induction ls with
    | nil => exact fun st hst => hst
    | cons x xs ih => exact fun st hst => ih (step st x) (step_PInv st x hst)
  exact this lines initPState PInv_init

/-- Chronological comparison of rows through their decoded timestamps, for instants
with 4-digit years. -/
def rowChronoLe (r1 r2 : List PyValue) : Prop :=
  ∀ t1 t2 : DT, DTValid t1 → DTValid t2 → 1000 ≤ t1.year → 1000 ≤ t2.year →
    rowTimeChars r1 = (fmtTimestamp t1).data → rowTimeChars r2 = (fmtTimestamp t2).data →
    chronoLe t1 t2

theorem rowle_imp_rowChronoLe (r1 r2 : List PyValue) (h : rowle r1 r2) : rowChronoLe r1 r2 := by
  intro t1 t2 hv1 hv2 hk1 hk2 he1 he2
  intro hlt
  have hstr : fmtTimestamp t2 < fmtTimestamp t1 :=
    (fmtTimestamp_lt_iff t2 t1 hv2 hv1 hk2 hk1).mpr hlt
  have hlist : (fmtTimestamp t2).data < (fmtTimestamp t1).data :=
    String.lt_iff_toList_lt.mp hstr
  have : lexLtB (rowTimeChars r2) (rowTimeChars r1) = true := by
    rw [lexLtB_true_iff, he1, he2]
    exact hlist
  rw [h] at this
  cases this

/-- C10 counterexample: `strftime('%Y')` does not zero-pad, so a parseable year-999
header (identifier ending `0999`) produces the 18-character text `"999-06-25 00:00:00"`
- not the fixed `YYYY-MM-DD HH:MM:SS` layout - and lexicographic order then disagrees
with chronological order: the 1982 text sorts BEFORE the 999 text although 999 is
chronologically earlier. -/
theorem C10_unpadded_year_counterexample :
    parseHeadTime "AL010999" "990625" "00" = Option.some ⟨999, 6, 25, 0⟩ ∧
    DTValid ⟨999, 6, 25, 0⟩ ∧
    fmtTimestamp ⟨999, 6, 25, 0⟩ = "999-06-25 00:00:00" ∧
    (fmtTimestamp ⟨999, 6, 25, 0⟩).data.length ≠ 19 ∧
    lexLtB (fmtTimestamp ⟨1982, 6, 25, 0⟩).data (fmtTimestamp ⟨999, 6, 25, 0⟩).data = true ∧
    chronoLt ⟨999, 6, 25, 0⟩ ⟨1982, 6, 25, 0⟩ := by
  decide

/-- C10 (amended): every timestamp `parse_and_save_to_db` persists is the `strftime`
rendering (`fmtTimestamp`) of a valid instant; for instants with 4-digit years (all
real ATCF identifiers) that rendering is the fixed 19-character `YYYY-MM-DD HH:MM:SS`
layout and lexicographic string order coincides with chronological order; consequently
the row list produced by `get_storm_obs`'s `ORDER BY TIME` is chronologically sorted
whenever the stored timestamps decode to 4-digit-year instants.  (Years below 1000
render unpadded and break the coincidence - see the counterexample.) -/
theorem C10_timestamps_sort_chronologically :
    (∀ (lines : List String) (r : List PyValue), r ∈ (parse_and_save_to_db lines).db →
      ∃ t, DTValid t ∧ r.get? 1 = Option.some (PyValue.pstr (fmtTimestamp t))) ∧
    (∀ t : DT, DTValid t → 1000 ≤ t.year → (fmtTimestamp t).data.length = 19) ∧
    (∀ t1 t2 : DT, DTValid t1 → DTValid t2 → 1000 ≤ t1.year → 1000 ≤ t2.year →
      (fmtTimestamp t1 < fmtTimestamp t2 ↔ chronoLt t1 t2)) ∧
    (∀ (db : List (List PyValue)) (ATCF_ID : String),
      List.Pairwise rowChronoLe (orderedRows db ATCF_ID)) := by
  refine ⟨?_, fun t _ hk => fmtTimestamp_length t hk, fmtTimestamp_lt_iff, ?_⟩
  · intro lines r hr
    exact (PInv_run lines).2.1 r hr
  · intro db ATCF_ID
    exact (sorted_orderedRows db ATCF_ID).imp (fun h => rowle_imp_rowChronoLe _ _ h)

/-- Witness for the amended C10 at two concrete instants six hours apart. -/
theorem C10_timestamps_sort_chronologically_witness :
    DTValid ⟨1982, 6, 25, 0⟩ ∧ DTValid ⟨1982, 6, 25, 6⟩ ∧
    1000 ≤ (⟨1982, 6, 25, 0⟩ : DT).year ∧
    (fmtTimestamp ⟨1982, 6, 25, 0⟩ < fmtTimestamp ⟨1982, 6, 25, 6⟩ ↔
      chronoLt ⟨1982, 6, 25, 0⟩ ⟨1982, 6, 25, 6⟩) :=
  ⟨by decide, by decide, by decide,
    C10_timestamps_sort_chronologically.2.2.1 ⟨1982, 6, 25, 0⟩ ⟨1982, 6, 25, 6⟩
      (by decide) (by decide) (by decide) (by decide)⟩
